import Mathlib

/-!
# Outbox-pattern event publisher: a shallow embedding

This file embeds the `PrismaDomainEventPublisher` class
(`src/domain/specifications/student-specifications.ts`, lines 1097-1804) and the
result types of its port (`src/application/ports/domain-event-publisher.ts`) as
executable Lean definitions, and proves/refutes the frozen claims about it.

Modelling conventions:
* Timestamps (`Date`, `Date.now()`) are naturals, milliseconds since the epoch.
  A single `now : Nat` parameter stands for the wall clock of one call.
* The Prisma `outboxEvent` table is a `List OutboxRow`; `create` appends,
  `updateMany`/`deleteMany` map/filter by their where-clauses, `update` by `id`.
* Fallible database calls take an explicit `Option String` error oracle:
  `none` means the call succeeds, `some e` means it throws with message `e`.
  `prisma.$transaction` is modelled as atomic (commit applies every create,
  failure applies none), which is the documented Prisma contract the code
  relies on; the per-create try/catch inside the transaction callback is
  modelled by a per-index oracle `Nat → Option String`.
* JavaScript `||` on numbers treats `0` as falsy; `jsNumOr` reproduces this.
* The delivery-handler registry is a function `String → Option (Option String)`:
  `none` = no handler registered for the type, `some none` = a registered
  handler that resolves, `some (some e)` = a registered handler that rejects
  with message `e`.  The built-in `defaultEventHandler` only logs and always
  resolves.
-/

namespace Outbox

/-- The shape of a domain event as consumed by the publisher
(`DomainEvent` from `src/shared`, fields used by the outbox). -/
structure DomainEvent where
  eventId : String
  eventType : String
  aggregateId : String
  tenantId : String
deriving DecidableEq

/-- `PublishOptions.retryPolicy` from the port: both fields are required numbers
once the policy object is present. -/
structure RetryPolicy where
  maxRetries : Nat
  backoffMs : Nat
deriving DecidableEq

/-- `PublishOptions` from the port (the fields the publisher reads). -/
structure PublishOptions where
  immediate : Option Bool
  retryPolicy : Option RetryPolicy
deriving DecidableEq

/-- `PublisherConfig` of `PrismaDomainEventPublisher`. -/
structure PublisherConfig where
  maxRetries : Nat
  baseBackoffMs : Nat
  maxBackoffMs : Nat
  batchSize : Nat
  processingIntervalMs : Nat
  enableLogging : Bool
deriving DecidableEq

/-- The constructor defaults: maxRetries 3, baseBackoffMs 1000, maxBackoffMs
60000, batchSize 50, processingIntervalMs 5000, enableLogging true. -/
def defaultConfig : PublisherConfig :=
  ⟨3, 1000, 60000, 50, 5000, true⟩

/-- One row of the `outboxEvent` table (the Prisma `OutboxEvent` model).
`id` is the primary key, `publishedAt`/`lastError` are nullable columns. -/
structure OutboxRow where
  id : Nat
  eventId : String
  eventType : String
  aggregateId : String
  tenantId : String
  published : Bool
  publishedAt : Option Nat
  retryCount : Nat
  maxRetries : Nat
  scheduledFor : Nat
  lastError : Option String
  createdAt : Nat
deriving DecidableEq

/-- The outbox table. -/
abbrev Store := List OutboxRow

/-- JavaScript `v || d` on an optional number: `undefined` and `0` are both
falsy, so they yield the default `d`. -/
def jsNumOr (v : Option Nat) (d : Nat) : Nat :=
  match v with
  | some n => if n = 0 then d else n
  | none => d

/-- Optional chaining `options?.retryPolicy`. -/
def optRetryPolicy (opts : Option PublishOptions) : Option RetryPolicy :=
  opts.bind PublishOptions.retryPolicy

/-- `options?.retryPolicy?.maxRetries || this.config.maxRetries`. -/
def effectiveMaxRetries (cfg : PublisherConfig) (opts : Option PublishOptions) : Nat :=
  jsNumOr ((optRetryPolicy opts).map RetryPolicy.maxRetries) cfg.maxRetries

/-- `options?.retryPolicy?.backoffMs || 0`. -/
def effectiveBackoffMs (opts : Option PublishOptions) : Nat :=
  jsNumOr ((optRetryPolicy opts).map RetryPolicy.backoffMs) 0

/-- `options?.immediate === false`. -/
def immediateIsFalse (opts : Option PublishOptions) : Bool :=
  (opts.bind PublishOptions.immediate) == some false

/-- `scheduledFor` chosen by `publish`/`publishBatch`:
`options?.immediate === false ? new Date(Date.now() + backoff) : now`. -/
def storedScheduledFor (now : Nat) (opts : Option PublishOptions) : Nat :=
  if immediateIsFalse opts then now + effectiveBackoffMs opts else now

/-- A fresh autoincrement primary key for the next inserted row. -/
def freshId (store : Store) : Nat :=
  (store.map OutboxRow.id).foldr max 0 + 1

/-- The row stored by `publish`/`publishBatch` for one event:
`published=false`, `retryCount=0`, `maxRetries` from the options with the
config default, `scheduledFor` per `storedScheduledFor`. -/
def mkOutboxRow (cfg : PublisherConfig) (now : Nat) (rid : Nat)
    (event : DomainEvent) (opts : Option PublishOptions) : OutboxRow :=
  ⟨rid, event.eventId, event.eventType, event.aggregateId, event.tenantId,
    false, none, 0, effectiveMaxRetries cfg opts, storedScheduledFor now opts,
    none, now⟩

/-- `PublishResult` from the port (the fields the claims concern). -/
structure PublishResult where
  success : Bool
  eventId : String
  publishedAt : Nat
  error : Option String
deriving DecidableEq

/-- `BatchPublishResult` from the port. -/
structure BatchPublishResult where
  totalEvents : Nat
  successCount : Nat
  failureCount : Nat
  results : List PublishResult
  processingTimeMs : Nat
deriving DecidableEq

/-- The failure `PublishResult` built in the catch branches. -/
def mkFailResult (eventId : String) (now : Nat) (e : String) : PublishResult :=
  ⟨false, eventId, now, some e⟩

/-- `PrismaDomainEventPublisher.publish` (lines 1134-1195): stores one outbox
row and returns a success result, or catches the storage error and returns a
failure result carrying its message.  `createErr` is the storage-error oracle
for the single `outboxEvent.create` call.  (The fire-and-forget immediate poll
trigger has no effect on the store within this call and is modelled with the
poll-tick definitions below.) -/
def publish (cfg : PublisherConfig) (now : Nat) (store : Store)
    (event : DomainEvent) (opts : Option PublishOptions)
    (createErr : Option String) : Store × PublishResult :=
  match createErr with
  | some e => (store, mkFailResult event.eventId now e)
  | none =>
      (store ++ [mkOutboxRow cfg now (freshId store) event opts],
       ⟨true, event.eventId, now, none⟩)

/-- The loop body of `publishBatch`'s transaction callback (lines 1212-1249):
walks the events with their index `i` and the next autoincrement id `rid`,
collecting the rows created, the per-event results pushed, and the
success/failure counters.  A create that throws (oracle `createErr i`) is
caught inside the callback: a failure result is pushed and the loop continues. -/
def batchAttempt (cfg : PublisherConfig) (now : Nat)
    (opts : Option PublishOptions) (createErr : Nat → Option String) :
    Nat → Nat → List DomainEvent → List OutboxRow × List PublishResult × Nat × Nat
  | _, _, [] => ([], [], 0, 0)
  | i, rid, ev :: rest =>
    match createErr i with
    | none =>
        let out := batchAttempt cfg now opts createErr (i + 1) (rid + 1) rest
        (mkOutboxRow cfg now rid ev opts :: out.1,
         (⟨true, ev.eventId, now, none⟩ : PublishResult) :: out.2.1,
         out.2.2.1 + 1, out.2.2.2)
    | some e =>
        let out := batchAttempt cfg now opts createErr (i + 1) (rid + 1) rest
        (out.1, mkFailResult ev.eventId now e :: out.2.1,
         out.2.2.1, out.2.2.2 + 1)

/-- `PrismaDomainEventPublisher.publishBatch` (lines 1204-1289).  The
transaction is atomic: on commit (`txErr = none`) every created row is
persisted; on transaction failure (`txErr = some e`) no row is persisted, the
counters are overwritten to `0`/`events.length`, and one failure result per
event, all carrying the transaction's error message, is appended to the
results already pushed inside the callback (the code does not clear those). -/
def publishBatch (cfg : PublisherConfig) (now : Nat) (store : Store)
    (events : List DomainEvent) (opts : Option PublishOptions)
    (createErr : Nat → Option String) (txErr : Option String) :
    Store × BatchPublishResult :=
  let out := batchAttempt cfg now opts createErr 0 (freshId store) events
  match txErr with
  | none =>
      (store ++ out.1,
       ⟨events.length, out.2.2.1, out.2.2.2, out.2.1, 0⟩)
  | some e =>
      (store,
       ⟨events.length, 0, events.length,
        out.2.1 ++ events.map (fun ev => mkFailResult ev.eventId now e), 0⟩)

/-- `PrismaDomainEventPublisher.scheduleEvent` (lines 1322-1364): same storage
path as `publish` but with the explicit schedule time. -/
def scheduleEvent (cfg : PublisherConfig) (now : Nat) (store : Store)
    (event : DomainEvent) (scheduleTime : Nat) (opts : Option PublishOptions)
    (createErr : Option String) : Store × PublishResult :=
  match createErr with
  | some e => (store, mkFailResult event.eventId now e)
  | none =>
      (store ++
        [{ mkOutboxRow cfg now (freshId store) event opts with
            scheduledFor := scheduleTime }],
       ⟨true, event.eventId, now, none⟩)

/-- Result type of `cancelScheduledEvent`. -/
structure CancelResult where
  success : Bool
  error : Option String
deriving DecidableEq

/-- The `deleteMany` where-clause of `cancelScheduledEvent`:
`eventId` matches and `published: false`. -/
def cancelMatches (eventId : String) (r : OutboxRow) : Bool :=
  r.eventId == eventId && r.published == false

/-- `PrismaDomainEventPublisher.cancelScheduledEvent` (lines 1372-1399):
deletes every unpublished row with the given event id; `success` is whether
the delete count was positive, otherwise the typed message is returned.  A
database error (`dbErr`) is caught and returned as a failure. -/
def cancelScheduledEvent (store : Store) (eventId : String)
    (dbErr : Option String) : Store × CancelResult :=
  match dbErr with
  | some e => (store, ⟨false, some e⟩)
  | none =>
      let remaining := store.filter (fun r => !(cancelMatches eventId r))
      if 0 < (store.filter (cancelMatches eventId)).length then
        (remaining, ⟨true, none⟩)
      else
        (remaining, ⟨false, some "Event not found or already published"⟩)

/-- The delivery-handler registry (`deliveryHandlers` map). -/
abbrev Handlers := String → Option (Option String)

/-- `deliveryHandlers.get(type) || defaultEventHandler` applied to the event:
an unregistered type falls through to `defaultEventHandler`, which only logs
and always resolves, so its outcome is success (`none`). -/
def handlerOutcome (handlers : Handlers) (eventType : String) : Option String :=
  match handlers eventType with
  | none => none
  | some o => o

/-- `min(baseBackoffMs * 2^r, maxBackoffMs)` from the retry branch of
`processOutboxEvent` (lines 1768-1773), where `r` is the row's `retryCount`
as read before the increment. -/
def backoffDelay (cfg : PublisherConfig) (r : Nat) : Nat :=
  min (cfg.baseBackoffMs * 2 ^ r) cfg.maxBackoffMs

/-- `PrismaDomainEventPublisher.processOutboxEvent` (lines 1745-1788): runs
the handler for the row's event type; on success updates the row (by primary
key) to `published=true, publishedAt=now`; on handler failure updates it to
`retryCount+1`, `scheduledFor = now + backoffDelay`, `lastError = message`,
leaving `published` untouched. -/
def processOutboxEvent (cfg : PublisherConfig) (now : Nat)
    (handlers : Handlers) (store : Store) (row : OutboxRow) : Store :=
  match handlerOutcome handlers row.eventType with
  | none =>
      store.map fun r =>
        if r.id == row.id then
          { r with published := true, publishedAt := some now }
        else r
  | some e =>
      store.map fun r =>
        if r.id == row.id then
          { r with retryCount := row.retryCount + 1,
                   scheduledFor := now + backoffDelay cfg row.retryCount,
                   lastError := some e }
        else r

/-- The `findMany` where-clause of `processOutboxEvents`:
`published: false, scheduledFor <= now, retryCount < config.maxRetries`.
Note the bound is the publisher-level `config.maxRetries`, not the row's own
`maxRetries` column. -/
def duePred (cfg : PublisherConfig) (now : Nat) (r : OutboxRow) : Bool :=
  !r.published && decide (r.scheduledFor ≤ now) &&
    decide (r.retryCount < cfg.maxRetries)

/-- `orderBy scheduledFor asc`. -/
def scheduledLE (a b : OutboxRow) : Prop :=
  a.scheduledFor ≤ b.scheduledFor

instance : DecidableRel scheduledLE := fun a b =>
  Nat.decLe a.scheduledFor b.scheduledFor

instance : IsTotal OutboxRow scheduledLE :=
  ⟨fun a b => Nat.le_total a.scheduledFor b.scheduledFor⟩

instance : IsTrans OutboxRow scheduledLE :=
  ⟨fun _ _ _ => Nat.le_trans⟩

/-- The due-set query of `processOutboxEvents` (lines 1710-1718): the due
rows, ordered by `scheduledFor` ascending, capped at `config.batchSize`.
`insertionSort` is a stable sort, matching the database's ordered select. -/
def selectPending (cfg : PublisherConfig) (now : Nat) (store : Store) :
    List OutboxRow :=
  (List.insertionSort scheduledLE (store.filter (duePred cfg now))).take
    cfg.batchSize

/-- `PrismaDomainEventPublisher.processOutboxEvents` (lines 1707-1738): one
poll tick body, dispatching each selected row sequentially. -/
def processOutboxEvents (cfg : PublisherConfig) (now : Nat)
    (handlers : Handlers) (store : Store) : Store :=
  (selectPending cfg now store).foldl (processOutboxEvent cfg now handlers) store

/-- The `updateMany` where-clause of `retryFailedEvents` (lines 1590-1594):
`published: false`, `retryCount < config.maxRetries` (note: `lt`, so rows at
or above the ceiling never match), and optionally `eventId in eventIds`. -/
def retryWhere (cfg : PublisherConfig) (eventIds : Option (List String))
    (r : OutboxRow) : Bool :=
  !r.published && decide (r.retryCount < cfg.maxRetries) &&
    (match eventIds with
     | none => true
     | some ids => ids.contains r.eventId)

/-- The reset applied by `retryFailedEvents`:
`retryCount=0, scheduledFor=now, lastError=null`. -/
def retryReset (now : Nat) (r : OutboxRow) : OutboxRow :=
  { r with retryCount := 0, scheduledFor := now, lastError := none }

/-- `PrismaDomainEventPublisher.retryFailedEvents` (lines 1586-1632): resets
every row matching `retryWhere` and reports the update count; a database
error is caught and reported as one failure. -/
def retryFailedEvents (cfg : PublisherConfig) (now : Nat) (store : Store)
    (eventIds : Option (List String)) (dbErr : Option String) :
    Store × BatchPublishResult :=
  match dbErr with
  | some _ => (store, ⟨0, 0, 1, [], 0⟩)
  | none =>
      let cnt := (store.filter (retryWhere cfg eventIds)).length
      (store.map (fun r => if retryWhere cfg eventIds r then retryReset now r else r),
       ⟨cnt, cnt, 0, [], 0⟩)

/-- The where-clause of `getFailedEvents` (lines 1549-1563):
`retryCount >= config.maxRetries, published: false`. -/
def failedWhere (cfg : PublisherConfig) (r : OutboxRow) : Bool :=
  decide (cfg.maxRetries ≤ r.retryCount) && !r.published

/-- The `total` count returned by `getFailedEvents`. -/
def getFailedEventsTotal (cfg : PublisherConfig) (store : Store) : Nat :=
  (store.filter (failedWhere cfg)).length

/-- Result type of `healthCheck` (port lines 143-149); `pendingEvents` and
`errorRate` are numbers that the error branch sets to `-1`. -/
structure HealthResult where
  healthy : Bool
  lastPublishTime : Option Nat
  pendingEvents : Int
  errorRate : Rat
  errorDetail : Option String
deriving DecidableEq

/-- `pendingEvents` count of `healthCheck`:
`published: false, scheduledFor <= now`. -/
def pendingCount (now : Nat) (store : Store) : Nat :=
  (store.filter (fun r => !r.published && decide (r.scheduledFor ≤ now))).length

/-- `PrismaDomainEventPublisher.healthCheck` (lines 1406-1466).  On a store
query error the catch branch resolves with
`healthy: false, pendingEvents: -1, errorRate: -1` and the message in the
details. -/
def healthCheck (cfg : PublisherConfig) (now : Nat) (store : Store)
    (dbErr : Option String) : HealthResult :=
  match dbErr with
  | some e => ⟨false, none, -1, -1, some e⟩
  | none =>
      let pending := pendingCount now store
      let recentCutoff := now - 3600000
      let totalRecent :=
        (store.filter (fun r => decide (recentCutoff ≤ r.createdAt))).length
      let failedRecent :=
        (store.filter (fun r =>
          decide (recentCutoff ≤ r.createdAt) &&
            decide (cfg.maxRetries ≤ r.retryCount))).length
      let errorRate : Rat :=
        if 0 < totalRecent then ((failedRecent : Rat) / (totalRecent : Rat)) * 100 else 0
      ⟨decide (errorRate < 10) && decide (pending < 1000),
       ((store.filter (fun r => r.published)).filterMap OutboxRow.publishedAt).max?,
       (pending : Int), errorRate, none⟩

/-- `cancelMatches` decoded: the where-clause holds exactly for unpublished
rows with the given event id. -/
lemma cancelMatches_iff (eid : String) (r : OutboxRow) :
    cancelMatches eid r = true ↔ r.eventId = eid ∧ r.published = false := by
  simp [cancelMatches]

/-- The store returned by a successful `cancelScheduledEvent` call is the
original store minus the rows matching the where-clause. -/
lemma cancelScheduledEvent_fst (store : Store) (eid : String) :
    (cancelScheduledEvent store eid none).1 =
      store.filter (fun r => !(cancelMatches eid r)) := by
  simp only [cancelScheduledEvent]
  split <;> rfl

/-- C10: if the store query inside healthCheck fails, healthCheck resolves
normally (it is a total function of the error oracle) with `healthy = false`
and the sentinel values `pendingEvents = -1` and `errorRate = -1`, carrying
the error message in the details; these sentinels are negative, whereas the
success path reports the actual pending count, which is never negative. -/
theorem c10_healthcheck_error_sentinels (cfg : PublisherConfig) (now : Nat)
    (store : Store) (e : String) :
    healthCheck cfg now store (some e) = ⟨false, none, -1, -1, some e⟩ ∧
    (healthCheck cfg now store (some e)).pendingEvents < 0 ∧
    (healthCheck cfg now store (some e)).errorRate < 0 ∧
    (healthCheck cfg now store none).pendingEvents = (pendingCount now store : Int) ∧
    0 ≤ (healthCheck cfg now store none).pendingEvents := by
  refine ⟨rfl, ?_, ?_, rfl, ?_⟩
  · show (-1 : Int) < 0
    decide
  · show (-1 : Rat) < 0
    decide
  · show 0 ≤ ((pendingCount now store : Nat) : Int)
    exact Int.natCast_nonneg _

/-- C8: cancelScheduledEvent deletes the matching rows if and only if an
unpublished row with the given eventId exists, returning success exactly in
that case; otherwise it deletes nothing and returns the typed message; rows
with `published = true` are never deleted; the surviving rows all come from
the original store and none of them is an unpublished row with the given id;
and a thrown database error is caught and returned as a failure result. -/
theorem c8_cancel_spec (store : Store) (eid : String) :
    ((cancelScheduledEvent store eid none).2.success = true ↔
       ∃ r ∈ store, r.eventId = eid ∧ r.published = false) ∧
    ((cancelScheduledEvent store eid none).2.success = false →
       (cancelScheduledEvent store eid none).1 = store ∧
       (cancelScheduledEvent store eid none).2.error =
         some "Event not found or already published") ∧
    (∀ r ∈ store, r.published = true →
       r ∈ (cancelScheduledEvent store eid none).1) ∧
    (∀ r ∈ (cancelScheduledEvent store eid none).1,
       r ∈ store ∧ ¬(r.eventId = eid ∧ r.published = false)) ∧
    (∀ e, cancelScheduledEvent store eid (some e) = (store, ⟨false, some e⟩)) := by
  have hpos : 0 < (store.filter (cancelMatches eid)).length ↔
      ∃ r ∈ store, r.eventId = eid ∧ r.published = false := by
    rw [← List.countP_eq_length_filter, List.countP_pos_iff]
    constructor
    · rintro ⟨r, hr, hm⟩
      exact ⟨r, hr, (cancelMatches_iff eid r).mp hm⟩
    · rintro ⟨r, hr, hm⟩
      exact ⟨r, hr, (cancelMatches_iff eid r).mpr hm⟩
  have hsucc : (cancelScheduledEvent store eid none).2.success =
      decide (0 < (store.filter (cancelMatches eid)).length) := by
    simp only [cancelScheduledEvent]
    split <;> simp_all
  refine ⟨?_, ?_, ?_, ?_, fun _ => rfl⟩
  · rw [hsucc, decide_eq_true_eq]
    exact hpos
  · intro hfalse
    rw [hsucc] at hfalse
    have hno : ¬0 < (store.filter (cancelMatches eid)).length := by
      simpa using hfalse
    have hall : ∀ r ∈ store, ¬cancelMatches eid r = true := by
      intro r hr hm
      exact hno (by rw [← List.countP_eq_length_filter, List.countP_pos_iff]; exact ⟨r, hr, hm⟩)
    constructor
    · rw [cancelScheduledEvent_fst]
      apply List.filter_eq_self.mpr
      intro r hr
      simpa using hall r hr
    · simp only [cancelScheduledEvent]
      split
      · omega
      · rfl
  · intro r hr hpub
    rw [cancelScheduledEvent_fst]
    refine List.mem_filter.mpr ⟨hr, ?_⟩
    simp [cancelMatches, hpub]
  · intro r hr
    rw [cancelScheduledEvent_fst] at hr
    have := List.mem_filter.mp hr
    refine ⟨this.1, fun hc => ?_⟩
    have := this.2
    rw [Bool.not_eq_true', ← Bool.not_eq_true] at this
    exact this ((cancelMatches_iff eid r).mpr hc)

/-- A published row and an unpublished row used to exercise
`cancelScheduledEvent` at a concrete input. -/
def c8wpub : OutboxRow :=
  ⟨1, "evt-8", "type-8", "agg-8", "ten-8", true, some 50, 0, 3, 0, none, 0⟩

def c8wpend : OutboxRow :=
  ⟨2, "evt-8", "type-8", "agg-8", "ten-8", false, none, 0, 3, 0, none, 0⟩

/-- C8 witness: at the concrete store `[c8wpub, c8wpend]` the call succeeds,
and the published row survives the deletion. -/
theorem c8_cancel_spec_witness :
    (cancelScheduledEvent [c8wpub, c8wpend] "evt-8" none).2.success = true ∧
    c8wpub ∈ (cancelScheduledEvent [c8wpub, c8wpend] "evt-8" none).1 := by
  have h := c8_cancel_spec [c8wpub, c8wpend] "evt-8"
  refine ⟨h.1.mpr ⟨c8wpend, by simp, by decide, by decide⟩, ?_⟩
  exact h.2.2.1 c8wpub (by simp) (by decide)

/-- C7: for a due event whose eventType has no registered delivery handler,
the default log-only handler runs and delivery counts as success: the row is
updated to `published = true` with `publishedAt` set, and afterwards no row
with that id is still unpublished. -/
theorem c7_default_handler_marks_published (cfg : PublisherConfig) (now : Nat)
    (handlers : Handlers) (store : Store) (row : OutboxRow)
    (hnone : handlers row.eventType = none) :
    (∀ r ∈ store, r.id = row.id →
       { r with published := true, publishedAt := some now }
         ∈ processOutboxEvent cfg now handlers store row) ∧
    (∀ r ∈ processOutboxEvent cfg now handlers store row,
       r.id = row.id → r.published = true ∧ r.publishedAt = some now) := by
  have hout : handlerOutcome handlers row.eventType = none := by
    simp [handlerOutcome, hnone]
  constructor
  · intro r hr hid
    simp only [processOutboxEvent, hout]
    have := List.mem_map_of_mem
      (fun r : OutboxRow =>
        if r.id == row.id then { r with published := true, publishedAt := some now }
        else r) hr
    simpa [hid] using this
  · intro r hr hid
    simp only [processOutboxEvent, hout] at hr
    obtain ⟨a, ha, rfl⟩ := List.mem_map.mp hr
    by_cases hb : (a.id == row.id) = true
    · simp [hb]
    · exfalso
      rw [if_neg hb] at hid
      exact (by simpa using hb : a.id ≠ row.id) hid

def c7wrow : OutboxRow :=
  ⟨1, "evt-7", "unroutable-type", "agg-7", "ten-7", false, none, 0, 3, 0, none, 0⟩

/-- An empty handler registry: no event type has a registered handler. -/
def c7whandlers : Handlers := fun _ => none

/-- C7 witness: at a concrete store with one unroutable pending row, the
dispatch marks it published with `publishedAt` set. -/
theorem c7_default_handler_witness :
    { c7wrow with published := true, publishedAt := some 9 }
      ∈ processOutboxEvent defaultConfig 9 c7whandlers [c7wrow] c7wrow := by
  exact (c7_default_handler_marks_published defaultConfig 9 c7whandlers
    [c7wrow] c7wrow rfl).1 c7wrow (by simp) rfl

def c6event : DomainEvent := ⟨"evt-6", "type-6", "agg-6", "ten-6"⟩

/-- Options requesting a retry policy with `maxRetries = 0`
(meaning: never retry). -/
def c6opts : Option PublishOptions := some ⟨none, some ⟨0, 0⟩⟩

/-- C6 counterexample: with `options.retryPolicy.maxRetries = 0` the stored
row carries the configured default `3`, not the provided `0`: JavaScript `||`
treats the provided `0` as absent.  The claim says maxRetries is taken from
`options.retryPolicy.maxRetries` or else the configured default, which at
this input demands `0`. -/
theorem c6_counterexample :
    ((publish defaultConfig 7 [] c6event c6opts none).1.map OutboxRow.maxRetries
       = [3]) ∧
    (3 : Nat) ≠ 0 := by decide

/-- C6 (amended): publish stores exactly one outbox row with
`published=false`, `retryCount=0`, `publishedAt` unset; its `maxRetries` is
`options.retryPolicy.maxRetries` when that is provided and non-zero, and the
configured default otherwise (a provided `0` is ignored by the falsy `||`
coalescing); its `scheduledFor` is `now` whenever `options.immediate` is not
`false`; the success result carries the eventId and the storage time; and
when storage fails the store is unchanged and a failure result carrying the
error message is returned — the function is total, so nothing escapes the
public boundary. -/
theorem c6_publish_amended (cfg : PublisherConfig) (now : Nat) (store : Store)
    (event : DomainEvent) (opts : Option PublishOptions) :
    (publish cfg now store event opts none).1 =
      store ++ [mkOutboxRow cfg now (freshId store) event opts] ∧
    (publish cfg now store event opts none).1.length = store.length + 1 ∧
    (mkOutboxRow cfg now (freshId store) event opts).published = false ∧
    (mkOutboxRow cfg now (freshId store) event opts).retryCount = 0 ∧
    (mkOutboxRow cfg now (freshId store) event opts).publishedAt = none ∧
    (mkOutboxRow cfg now (freshId store) event opts).eventId = event.eventId ∧
    (optRetryPolicy opts = none →
       (mkOutboxRow cfg now (freshId store) event opts).maxRetries =
         cfg.maxRetries) ∧
    (∀ rp, optRetryPolicy opts = some rp → 0 < rp.maxRetries →
       (mkOutboxRow cfg now (freshId store) event opts).maxRetries =
         rp.maxRetries) ∧
    (∀ rp, optRetryPolicy opts = some rp → rp.maxRetries = 0 →
       (mkOutboxRow cfg now (freshId store) event opts).maxRetries =
         cfg.maxRetries) ∧
    (immediateIsFalse opts = false →
       (mkOutboxRow cfg now (freshId store) event opts).scheduledFor = now) ∧
    (publish cfg now store event opts none).2 = ⟨true, event.eventId, now, none⟩ ∧
    (∀ e, publish cfg now store event opts (some e) =
       (store, ⟨false, event.eventId, now, some e⟩)) := by
  refine ⟨rfl, by simp [publish], rfl, rfl, rfl, rfl, ?_, ?_, ?_, ?_, rfl, fun _ => rfl⟩
  · intro hnone
    simp [mkOutboxRow, effectiveMaxRetries, hnone, jsNumOr]
  · intro rp hsome hpos
    simp only [mkOutboxRow, effectiveMaxRetries, hsome, Option.map_some', jsNumOr]
    rw [if_neg (by omega)]
  · intro rp hsome hzero
    simp [mkOutboxRow, effectiveMaxRetries, hsome, jsNumOr, hzero]
  · intro himm
    simp [mkOutboxRow, storedScheduledFor, himm]

def c6wevent : DomainEvent := ⟨"evt-6w", "type-6w", "agg-6w", "ten-6w"⟩

/-- C6 witness: the amended theorem applied at a concrete input, discharging
the hypotheses of its conditional parts. -/
theorem c6_publish_amended_witness :
    (mkOutboxRow defaultConfig 11 (freshId []) c6wevent
        (some ⟨none, some ⟨7, 0⟩⟩)).maxRetries = 7 ∧
    (mkOutboxRow defaultConfig 11 (freshId []) c6wevent
        (some ⟨none, some ⟨7, 0⟩⟩)).scheduledFor = 11 := by
  have h := c6_publish_amended defaultConfig 11 [] c6wevent (some ⟨none, some ⟨7, 0⟩⟩)
  exact ⟨h.2.2.2.2.2.2.2.1 ⟨7, 0⟩ rfl (by decide),
    h.2.2.2.2.2.2.2.2.2.1 (by decide)⟩

def c1event : DomainEvent := ⟨"evt-1", "type-1", "agg-1", "ten-1"⟩

/-- A per-create error oracle where the first create inside the transaction
callback throws (e.g. a unique-constraint violation) and is caught by the
inner try/catch. -/
def c1createErr : Nat → Option String :=
  fun i => if i = 0 then some "duplicate key" else none

/-- C1 counterexample: a batch of N = 1 event where one create fails inside
the transaction callback (caught, a failure result is pushed) and the
transaction itself then fails.  The returned results list holds 2 failure
results, not exactly N = 1, and the two carry different error messages,
because the outer catch appends N failures without clearing the results
already pushed. -/
theorem c1_counterexample :
    (((publishBatch defaultConfig 0 [] [c1event] none c1createErr
          (some "transaction aborted")).2.results.filter
        (fun r => r.success == false)).length ≠ [c1event].length) ∧
    ((publishBatch defaultConfig 0 [] [c1event] none c1createErr
          (some "transaction aborted")).2.results.map PublishResult.error =
       [some "duplicate key", some "transaction aborted"]) := by decide

/-- Inner-loop results of `publishBatch` are all successes when no create
throws. -/
lemma batchAttempt_results_success (cfg : PublisherConfig) (now : Nat)
    (opts : Option PublishOptions) (createErr : Nat → Option String)
    (h : ∀ i, createErr i = none) :
    ∀ events i rid,
      ∀ r ∈ (batchAttempt cfg now opts createErr i rid events).2.1,
        r.success = true := by
  intro events
  induction events with
  | nil => intro i rid r hr; simp [batchAttempt] at hr
  | cons ev rest ih =>
      intro i rid r hr
      rw [batchAttempt, h i] at hr
      rcases List.mem_cons.mp hr with rfl | htail
      · rfl
      · exact ih (i + 1) (rid + 1) r htail

/-- Filtering a list of failure results for failures returns it unchanged. -/
lemma filter_fail_map (now : Nat) (e : String) :
    ∀ events : List DomainEvent,
      ((events.map (fun ev => mkFailResult ev.eventId now e)).filter
        (fun r => r.success == false)) =
        events.map (fun ev => mkFailResult ev.eventId now e) := by
  intro events
  induction events with
  | nil => rfl
  | cons ev rest ih => simp [mkFailResult, ih]

/-- C1 (amended): when the storage transaction of publishBatch fails, zero
outbox rows are persisted (the store is returned unchanged) and the returned
BatchPublishResult reports `successCount = 0` and `failureCount = N`; one
failure result per event, all carrying the transaction's error message, is
appended at the end of the results list.  However, per-event results pushed
inside the transaction callback before the failure are not cleared, so the
list may contain more than N entries; only when no create inside the callback
threw do the failure entries of the list come to exactly the N appended ones
with the single shared message. -/
theorem c1_batch_tx_failure_amended (cfg : PublisherConfig) (now : Nat)
    (store : Store) (events : List DomainEvent) (opts : Option PublishOptions)
    (createErr : Nat → Option String) (e : String) :
    (publishBatch cfg now store events opts createErr (some e)).1 = store ∧
    (publishBatch cfg now store events opts createErr (some e)).2.totalEvents =
      events.length ∧
    (publishBatch cfg now store events opts createErr (some e)).2.successCount = 0 ∧
    (publishBatch cfg now store events opts createErr (some e)).2.failureCount =
      events.length ∧
    (∃ pre, (publishBatch cfg now store events opts createErr (some e)).2.results =
       pre ++ events.map (fun ev => mkFailResult ev.eventId now e)) ∧
    (∀ ev ∈ events, mkFailResult ev.eventId now e ∈
       (publishBatch cfg now store events opts createErr (some e)).2.results) ∧
    ((∀ i, createErr i = none) →
       ((publishBatch cfg now store events opts createErr (some e)).2.results.filter
          (fun r => r.success == false)) =
         events.map (fun ev => mkFailResult ev.eventId now e)) := by
  refine ⟨rfl, rfl, rfl, rfl,
    ⟨(batchAttempt cfg now opts createErr 0 (freshId store) events).2.1, rfl⟩,
    ?_, ?_⟩
  · intro ev hev
    show mkFailResult ev.eventId now e ∈
      (batchAttempt cfg now opts createErr 0 (freshId store) events).2.1 ++
        events.map (fun ev => mkFailResult ev.eventId now e)
    exact List.mem_append_right _
      (List.mem_map_of_mem (fun ev => mkFailResult ev.eventId now e) hev)
  · intro hnone
    show ((batchAttempt cfg now opts createErr 0 (freshId store) events).2.1 ++
        events.map (fun ev => mkFailResult ev.eventId now e)).filter
          (fun r => r.success == false) = _
    rw [List.filter_append, filter_fail_map]
    have hempty : ((batchAttempt cfg now opts createErr 0
        (freshId store) events).2.1.filter (fun r => r.success == false)) = [] := by
      apply List.filter_eq_nil_iff.mpr
      intro r hr
      have := batchAttempt_results_success cfg now opts createErr hnone events 0
        (freshId store) r hr
      simp [this]
    rw [hempty, List.nil_append]

def c1wevent : DomainEvent := ⟨"evt-1w", "type-1w", "agg-1w", "ten-1w"⟩

/-- C1 witness: the amended theorem at a concrete input with no inner create
failure; the failure entries are exactly the one appended failure result. -/
theorem c1_batch_tx_failure_witness :
    ((publishBatch defaultConfig 3 [] [c1wevent] none (fun _ => none)
        (some "commit failed")).2.results.filter
      (fun r => r.success == false)) =
      [mkFailResult "evt-1w" 3 "commit failed"] := by
  have h := c1_batch_tx_failure_amended defaultConfig 3 [] [c1wevent] none
    (fun _ => none) "commit failed"
  exact h.2.2.2.2.2.2 (fun _ => rfl)

/-- A pending row whose own `maxRetries` column is 1 and whose `retryCount`
has reached it, while the publisher config keeps the default ceiling 3. -/
def c2row : OutboxRow :=
  ⟨1, "evt-2", "type-2", "agg-2", "ten-2", false, none, 1, 1, 0, none, 0⟩

/-- C2 counterexample: the row has `retryCount = 1 = its own maxRetries`, so
by the claim it must be excluded from every due-set; but the poll query
compares against the publisher config's `maxRetries` (3), not the row's own
column, and selects it. -/
theorem c2_counterexample :
    c2row ∈ selectPending defaultConfig 100 [c2row] ∧
    c2row.maxRetries ≤ c2row.retryCount := by decide

/-- C2 (amended): a poll tick selects only rows with `published = false`,
`scheduledFor <= now`, and `retryCount` strictly below the publisher
config's `maxRetries` (not the row's own `maxRetries` column), ordered by
`scheduledFor` ascending and capped at `batchSize`; in particular a row whose
`retryCount` has reached the config ceiling is excluded from every tick. -/
theorem c2_due_set_amended (cfg : PublisherConfig) (now : Nat) (store : Store) :
    (∀ r ∈ selectPending cfg now store,
       r ∈ store ∧ r.published = false ∧ r.scheduledFor ≤ now ∧
         r.retryCount < cfg.maxRetries) ∧
    (selectPending cfg now store).length ≤ cfg.batchSize ∧
    List.Sorted scheduledLE (selectPending cfg now store) ∧
    (∀ r ∈ store, cfg.maxRetries ≤ r.retryCount →
       r ∉ selectPending cfg now store) := by
  have hmem : ∀ r ∈ selectPending cfg now store,
      r ∈ store ∧ duePred cfg now r = true := by
    intro r hr
    have h1 : r ∈ List.insertionSort scheduledLE (store.filter (duePred cfg now)) :=
      (List.take_sublist _ _).mem hr
    have h2 : r ∈ store.filter (duePred cfg now) :=
      (List.mem_insertionSort scheduledLE).mp h1
    exact List.mem_filter.mp h2
  refine ⟨?_, ?_, ?_, ?_⟩
  · intro r hr
    obtain ⟨hs, hp⟩ := hmem r hr
    simp only [duePred, Bool.and_eq_true, Bool.not_eq_true', decide_eq_true_eq] at hp
    exact ⟨hs, hp.1.1, hp.1.2, hp.2⟩
  · rw [selectPending, List.length_take]
    exact min_le_left _ _
  · exact (List.sorted_insertionSort scheduledLE _).sublist (List.take_sublist _ _)
  · intro r _ hge hmem2
    obtain ⟨_, hp⟩ := hmem r hmem2
    simp only [duePred, Bool.and_eq_true, Bool.not_eq_true', decide_eq_true_eq] at hp
    omega

def c2wrow : OutboxRow :=
  ⟨1, "evt-2w", "type-2w", "agg-2w", "ten-2w", false, none, 0, 3, 4, none, 0⟩

/-- C2 witness: the amended theorem at a concrete store; the selected row is
pending, due, and below the config ceiling. -/
theorem c2_due_set_witness :
    c2wrow ∈ [c2wrow] ∧ c2wrow.published = false ∧ c2wrow.scheduledFor ≤ 9 ∧
      c2wrow.retryCount < defaultConfig.maxRetries := by
  exact (c2_due_set_amended defaultConfig 9 [c2wrow]).1 c2wrow (by decide)

/-- A dead-lettered row: unpublished with `retryCount` at the config
ceiling. -/
def c3row : OutboxRow :=
  ⟨1, "evt-3", "type-3", "agg-3", "ten-3", false, none, 3, 3, 0,
    some "handler kept failing", 0⟩

/-- C3: the code contradicts its sibling query and its own doc comment.  The
row is dead-lettered by the very criterion `getFailedEvents` uses
(`retryCount >= config.maxRetries AND published = false`, so the row is
reported among the failed events, total 1), yet `retryFailedEvents` — with an
explicit id list or without — resets nothing and reports 0 matched rows,
because its where-clause demands `retryCount < config.maxRetries`.  A
dead-lettered row therefore never re-enters the pipeline. -/
theorem c3_dead_letter_never_reset :
    failedWhere defaultConfig c3row = true ∧
    getFailedEventsTotal defaultConfig [c3row] = 1 ∧
    (retryFailedEvents defaultConfig 100 [c3row] none none).1 = [c3row] ∧
    (retryFailedEvents defaultConfig 100 [c3row] none none).2.totalEvents = 0 ∧
    (retryFailedEvents defaultConfig 100 [c3row] (some ["evt-3"]) none).1 =
      [c3row] ∧
    (retryFailedEvents defaultConfig 100 [c3row] (some ["evt-3"]) none).2.totalEvents
      = 0 := by decide

/-- A pending row that has already failed once. -/
def c4row : OutboxRow :=
  ⟨1, "evt-4", "type-4", "agg-4", "ten-4", false, none, 1, 3, 0, none, 0⟩

/-- A registry whose handler for every type rejects. -/
def c4handlers : Handlers := fun _ => some (some "handler rejected")

/-- C4 counterexample: dispatching `c4row` (stored `retryCount = 1`) against
a failing handler increments `retryCount` to 2 but schedules the retry at
`now + min(baseBackoffMs * 2^1, maxBackoffMs) = 2000`, not at
`now + min(baseBackoffMs * 2^2, maxBackoffMs) = 4000` as the claim's
formula over the incremented `retryCount` demands: the code computes the
backoff from the pre-increment count. -/
theorem c4_counterexample :
    ((processOutboxEvent defaultConfig 0 c4handlers [c4row] c4row).map
        OutboxRow.retryCount = [2]) ∧
    ((processOutboxEvent defaultConfig 0 c4handlers [c4row] c4row).map
        OutboxRow.scheduledFor = [2000]) ∧
    (2000 : Nat) ≠
      0 + min (defaultConfig.baseBackoffMs * 2 ^ 2) defaultConfig.maxBackoffMs := by
  decide

/-- C4 (amended): for a dispatched event whose handler fails, the dispatcher
increments `retryCount` by exactly 1 and sets
`scheduledFor = now + min(baseBackoffMs * 2^r, maxBackoffMs)` where `r` is
the retry count read before the increment, sets `lastError` to the failure's
message, and leaves `published` (and `publishedAt`) untouched; the backoff
delay is monotonically non-decreasing in the retry count and never exceeds
`maxBackoffMs`. -/
theorem c4_retry_backoff_amended (cfg : PublisherConfig) (now : Nat)
    (handlers : Handlers) (store : Store) (row : OutboxRow) (e : String)
    (hfail : handlerOutcome handlers row.eventType = some e) :
    (∀ r ∈ store, r.id = row.id →
       { r with retryCount := row.retryCount + 1,
                scheduledFor := now + backoffDelay cfg row.retryCount,
                lastError := some e }
         ∈ processOutboxEvent cfg now handlers store row) ∧
    (∀ r : OutboxRow,
       ({ r with retryCount := row.retryCount + 1,
                 scheduledFor := now + backoffDelay cfg row.retryCount,
                 lastError := some e } : OutboxRow).published = r.published ∧
       ({ r with retryCount := row.retryCount + 1,
                 scheduledFor := now + backoffDelay cfg row.retryCount,
                 lastError := some e } : OutboxRow).publishedAt = r.publishedAt) ∧
    (∀ a b : Nat, a ≤ b → backoffDelay cfg a ≤ backoffDelay cfg b) ∧
    (∀ a : Nat, backoffDelay cfg a ≤ cfg.maxBackoffMs) := by
  refine ⟨?_, fun r => ⟨rfl, rfl⟩, ?_, fun a => min_le_right _ _⟩
  · intro r hr hid
    simp only [processOutboxEvent, hfail]
    have := List.mem_map_of_mem
      (fun r : OutboxRow =>
        if r.id == row.id then
          { r with retryCount := row.retryCount + 1,
                   scheduledFor := now + backoffDelay cfg row.retryCount,
                   lastError := some e }
        else r) hr
    simpa [hid] using this
  · intro a b hab
    exact min_le_min
      (Nat.mul_le_mul_left _ (Nat.pow_le_pow_right (by omega) hab)) (le_refl _)

def c4wrow : OutboxRow :=
  ⟨1, "evt-4w", "type-4w", "agg-4w", "ten-4w", false, none, 0, 3, 0, none, 0⟩

def c4whandlers : Handlers := fun _ => some (some "boom")

/-- C4 witness: the amended theorem at a concrete input; the first failure
reschedules the row by exactly `baseBackoffMs`. -/
theorem c4_retry_backoff_witness :
    { c4wrow with
        retryCount := 1,
        scheduledFor := 5 + backoffDelay defaultConfig 0,
        lastError := some "boom" }
      ∈ processOutboxEvent defaultConfig 5 c4whandlers [c4wrow] c4wrow ∧
    backoffDelay defaultConfig 0 ≤ backoffDelay defaultConfig 3 ∧
    backoffDelay defaultConfig 3 ≤ defaultConfig.maxBackoffMs := by
  have h := c4_retry_backoff_amended defaultConfig 5 c4whandlers [c4wrow]
    c4wrow "boom" rfl
  exact ⟨h.1 c4wrow (by simp) rfl, h.2.2.1 0 3 (by decide), h.2.2.2 3⟩

/-- Rows selected by the due-set query come from the store and are
unpublished. -/
lemma selectPending_unpublished (cfg : PublisherConfig) (now : Nat)
    (store : Store) :
    ∀ p ∈ selectPending cfg now store, p ∈ store ∧ p.published = false := by
  intro p hp
  have h1 : p ∈ List.insertionSort scheduledLE (store.filter (duePred cfg now)) :=
    (List.take_sublist _ _).mem hp
  have h2 : p ∈ store.filter (duePred cfg now) :=
    (List.mem_insertionSort scheduledLE).mp h1
  obtain ⟨hs, hd⟩ := List.mem_filter.mp h2
  simp only [duePred, Bool.and_eq_true, Bool.not_eq_true'] at hd
  exact ⟨hs, hd.1.1⟩

/-- Dispatching one row leaves every row with a different primary key
untouched. -/
lemma processOutboxEvent_preserves_other (cfg : PublisherConfig) (now : Nat)
    (handlers : Handlers) (store : Store) (row : OutboxRow) (r : OutboxRow)
    (hr : r ∈ store) (hid : r.id ≠ row.id) :
    r ∈ processOutboxEvent cfg now handlers store row := by
  have hb : (r.id == row.id) = false := by simpa using hid
  rcases hout : handlerOutcome handlers row.eventType with _ | e
  · simp only [processOutboxEvent, hout]
    have := List.mem_map_of_mem
      (fun q : OutboxRow =>
        if q.id == row.id then { q with published := true, publishedAt := some now }
        else q) hr
    simpa [hb] using this
  · simp only [processOutboxEvent, hout]
    have := List.mem_map_of_mem
      (fun q : OutboxRow =>
        if q.id == row.id then
          { q with retryCount := row.retryCount + 1,
                   scheduledFor := now + backoffDelay cfg row.retryCount,
                   lastError := some e }
        else q) hr
    simpa [hb] using this

/-- Dispatching one row preserves the published-iff-publishedAt consistency
of every row. -/
lemma processOutboxEvent_consistent (cfg : PublisherConfig) (now : Nat)
    (handlers : Handlers) (store : Store) (row : OutboxRow)
    (h : ∀ q ∈ store, q.published = q.publishedAt.isSome) :
    ∀ q ∈ processOutboxEvent cfg now handlers store row,
      q.published = q.publishedAt.isSome := by
  intro q hq
  rcases hout : handlerOutcome handlers row.eventType with _ | e <;>
    simp only [processOutboxEvent, hout] at hq <;>
    obtain ⟨a, ha, rfl⟩ := List.mem_map.mp hq <;>
    by_cases hb : (a.id == row.id) = true
  · rw [if_pos hb]
    rfl
  · rw [if_neg hb]
    exact h a ha
  · rw [if_pos hb]
    exact h a ha
  · rw [if_neg hb]
    exact h a ha

/-- A row whose id differs from every dispatched row survives the whole tick
unchanged. -/
lemma foldProcess_preserves (cfg : PublisherConfig) (now : Nat)
    (handlers : Handlers) (r : OutboxRow) :
    ∀ (ps : List OutboxRow) (store' : Store),
      (∀ p ∈ ps, p.id ≠ r.id) → r ∈ store' →
        r ∈ ps.foldl (processOutboxEvent cfg now handlers) store' := by
  intro ps
  induction ps with
  | nil => intro store' _ hr; exact hr
  | cons p rest ih =>
      intro store' hne hr
      simp only [List.foldl_cons]
      refine ih _ (fun q hq => hne q (List.mem_cons_of_mem _ hq)) ?_
      exact processOutboxEvent_preserves_other cfg now handlers store' p r hr
        (fun hrr => hne p (List.mem_cons_self _ _) hrr.symm)

/-- The whole tick preserves the published-iff-publishedAt consistency. -/
lemma foldProcess_consistent (cfg : PublisherConfig) (now : Nat)
    (handlers : Handlers) :
    ∀ (ps : List OutboxRow) (store' : Store),
      (∀ q ∈ store', q.published = q.publishedAt.isSome) →
        ∀ q ∈ ps.foldl (processOutboxEvent cfg now handlers) store',
          q.published = q.publishedAt.isSome := by
  intro ps
  induction ps with
  | nil => intro store' h q hq; exact h q hq
  | cons p rest ih =>
      intro store' h q hq
      simp only [List.foldl_cons] at hq
      exact ih _ (processOutboxEvent_consistent cfg now handlers store' p h) q hq

/-- Rows created inside the batch transaction are pending and undelivered. -/
lemma batchAttempt_rows_pending (cfg : PublisherConfig) (now : Nat)
    (opts : Option PublishOptions) (createErr : Nat → Option String) :
    ∀ (events : List DomainEvent) (i rid : Nat),
      ∀ r ∈ (batchAttempt cfg now opts createErr i rid events).1,
        r.published = false ∧ r.publishedAt = none := by
  intro events
  induction events with
  | nil => intro i rid r hr; simp [batchAttempt] at hr
  | cons ev rest ih =>
      intro i rid r hr
      rcases hc : createErr i with _ | e <;> rw [batchAttempt, hc] at hr
      · rcases List.mem_cons.mp hr with rfl | htail
        · exact ⟨rfl, rfl⟩
        · exact ih (i + 1) (rid + 1) r htail
      · exact ih (i + 1) (rid + 1) r hr

/-- C9: once a row has `published = true`, no publisher operation mutates or
deletes it: a poll tick (assuming distinct primary keys, which the database
guarantees), retryFailedEvents, and cancelScheduledEvent all return a store
still containing that exact row.  Moreover every operation — including
publish, scheduleEvent, and publishBatch, whose fresh rows are created with
`published = false` and `publishedAt = null` — preserves the dichotomy that
`published` holds exactly when `publishedAt` is set. -/
theorem c9_published_rows_immutable (cfg : PublisherConfig) (now : Nat)
    (handlers : Handlers) (store : Store) (eventIds : Option (List String))
    (cid : String) (ev : DomainEvent) (events : List DomainEvent)
    (opts : Option PublishOptions) (createErr : Nat → Option String)
    (stime : Nat)
    (hids : (store.map OutboxRow.id).Nodup)
    (hcons : ∀ r ∈ store, r.published = r.publishedAt.isSome) :
    (∀ r ∈ store, r.published = true →
       r ∈ processOutboxEvents cfg now handlers store ∧
       r ∈ (retryFailedEvents cfg now store eventIds none).1 ∧
       r ∈ (cancelScheduledEvent store cid none).1) ∧
    (∀ r ∈ processOutboxEvents cfg now handlers store,
       r.published = r.publishedAt.isSome) ∧
    (∀ r ∈ (retryFailedEvents cfg now store eventIds none).1,
       r.published = r.publishedAt.isSome) ∧
    (∀ r ∈ (cancelScheduledEvent store cid none).1,
       r.published = r.publishedAt.isSome) ∧
    (∀ r ∈ (publish cfg now store ev opts none).1,
       r.published = r.publishedAt.isSome) ∧
    (∀ r ∈ (scheduleEvent cfg now store ev stime opts none).1,
       r.published = r.publishedAt.isSome) ∧
    (∀ r ∈ (publishBatch cfg now store events opts createErr none).1,
       r.published = r.publishedAt.isSome) := by
  refine ⟨?_, ?_, ?_, ?_, ?_, ?_, ?_⟩
  · intro r hr hpub
    refine ⟨?_, ?_, ?_⟩
    · unfold processOutboxEvents
      refine foldProcess_preserves cfg now handlers r _ store ?_ hr
      intro p hp heq
      obtain ⟨hpstore, hpunpub⟩ := selectPending_unpublished cfg now store p hp
      have hpr : p = r := List.inj_on_of_nodup_map hids hpstore hr heq
      rw [hpr, hpub] at hpunpub
      exact Bool.noConfusion hpunpub
    · simp only [retryFailedEvents]
      have hw : retryWhere cfg eventIds r = false := by
        simp [retryWhere, hpub]
      have hm := List.mem_map_of_mem
        (fun q => if retryWhere cfg eventIds q then retryReset now q else q) hr
      simpa [hw] using hm
    · rw [cancelScheduledEvent_fst]
      exact List.mem_filter.mpr ⟨hr, by simp [cancelMatches, hpub]⟩
  · intro r hr
    exact foldProcess_consistent cfg now handlers _ store hcons r hr
  · intro r hr
    simp only [retryFailedEvents] at hr
    obtain ⟨a, ha, rfl⟩ := List.mem_map.mp hr
    by_cases hw : retryWhere cfg eventIds a = true
    · rw [if_pos hw]
      show (retryReset now a).published = (retryReset now a).publishedAt.isSome
      simpa [retryReset] using hcons a ha
    · rw [if_neg hw]
      exact hcons a ha
  · intro r hr
    rw [cancelScheduledEvent_fst] at hr
    exact hcons r (List.mem_filter.mp hr).1
  · intro r hr
    rcases List.mem_append.mp hr with hl | hnew
    · exact hcons r hl
    · rw [List.mem_singleton.mp hnew]
      rfl
  · intro r hr
    rcases List.mem_append.mp hr with hl | hnew
    · exact hcons r hl
    · rw [List.mem_singleton.mp hnew]
      rfl
  · intro r hr
    rcases List.mem_append.mp hr with hl | hnew
    · exact hcons r hl
    · obtain ⟨hp, hpa⟩ := batchAttempt_rows_pending cfg now opts createErr
        events 0 (freshId store) r hnew
      rw [hp, hpa]
      rfl

def c9wpub : OutboxRow :=
  ⟨1, "evt-9p", "type-9", "agg-9", "ten-9", true, some 50, 0, 3, 0, none, 0⟩

def c9wpend : OutboxRow :=
  ⟨2, "evt-9q", "type-9", "agg-9", "ten-9", false, none, 0, 3, 0, none, 0⟩

def c9wev : DomainEvent := ⟨"evt-9e", "type-9", "agg-9", "ten-9"⟩

/-- C9 witness: at a concrete two-row store the published row survives a
poll tick, a retry reset, and a cancellation, untouched. -/
theorem c9_published_rows_witness :
    c9wpub ∈ processOutboxEvents defaultConfig 10 c7whandlers [c9wpub, c9wpend] ∧
    c9wpub ∈ (retryFailedEvents defaultConfig 10 [c9wpub, c9wpend] none none).1 ∧
    c9wpub ∈ (cancelScheduledEvent [c9wpub, c9wpend] "evt-9q" none).1 := by
  have h := c9_published_rows_immutable defaultConfig 10 c7whandlers
    [c9wpub, c9wpend] none "evt-9q" c9wev [] none (fun _ => none) 0
    (by decide) (by decide)
  exact h.1 c9wpub (by simp) rfl

/-!
## Single-flight poll tick (`processOutboxEventsAsync`, lines 1689-1701)

JavaScript runs one invocation's code atomically between `await` suspension
points.  The guard

  `if (this.isProcessing) return;  this.isProcessing = true;`

has no `await` between check and set, so it is one atomic segment; the tick
body then suspends on the store query and on each row update, and the
`finally` clause clears the flag.  We model two competing invocations of the
tick (timer-driven and the immediate fire-and-forget trigger of
`publish`/`publishBatch`/`retryFailedEvents`) as a small-step system whose
atomic actions may interleave arbitrarily.  Each invocation walks the phases
idle → (entered → queried → marked → done | skipped); `claimed` records the
due rows an invocation obtained from its query, and `mark` commits their
removal from the due set (delivery).
-/

/-- Phases of one invocation of the poll tick, split at its suspension
points. -/
inductive TickPhase
  | idle
  | skipped
  | entered
  | queried
  | marked
  | done
deriving DecidableEq

/-- An invocation holds the single-flight flag from the guard until the
`finally` clears it. -/
def TickPhase.isActive : TickPhase → Bool
  | TickPhase.entered => true
  | TickPhase.queried => true
  | TickPhase.marked => true
  | _ => false

/-- The in-memory state of one publisher instance with two competing tick
invocations: the `isProcessing` flag, the due rows still undelivered, and
each invocation's phase and claimed rows (events named by ids). -/
structure PollSystem where
  processing : Bool
  due : List Nat
  phase1 : TickPhase
  phase2 : TickPhase
  claimed1 : List Nat
  claimed2 : List Nat
deriving DecidableEq

/-- Initial state: flag clear, both invocations not yet started. -/
def pollInit (due0 : List Nat) : PollSystem :=
  ⟨false, due0, TickPhase.idle, TickPhase.idle, [], []⟩

/-- One atomic action of either tick invocation.  `guardSkip` is
`if (this.isProcessing) return` observing a set flag; `guardEnter` is the
same check falling through and setting the flag (no suspension point in
between); `query` is the due-set select; `mark` commits the claimed rows'
delivery; `clear` is the `finally` resetting the flag. -/
inductive PollStep : PollSystem → PollSystem → Prop
  | guardSkip1 (s : PollSystem) :
      s.phase1 = TickPhase.idle → s.processing = true →
      PollStep s { s with phase1 := TickPhase.skipped }
  | guardEnter1 (s : PollSystem) :
      s.phase1 = TickPhase.idle → s.processing = false →
      PollStep s { s with processing := true, phase1 := TickPhase.entered }
  | query1 (s : PollSystem) :
      s.phase1 = TickPhase.entered →
      PollStep s { s with phase1 := TickPhase.queried, claimed1 := s.due }
  | mark1 (s : PollSystem) :
      s.phase1 = TickPhase.queried →
      PollStep s { s with phase1 := TickPhase.marked,
                          due := s.due.filter (fun e => !s.claimed1.contains e) }
  | clear1 (s : PollSystem) :
      s.phase1 = TickPhase.marked →
      PollStep s { s with processing := false, phase1 := TickPhase.done }
  | guardSkip2 (s : PollSystem) :
      s.phase2 = TickPhase.idle → s.processing = true →
      PollStep s { s with phase2 := TickPhase.skipped }
  | guardEnter2 (s : PollSystem) :
      s.phase2 = TickPhase.idle → s.processing = false →
      PollStep s { s with processing := true, phase2 := TickPhase.entered }
  | query2 (s : PollSystem) :
      s.phase2 = TickPhase.entered →
      PollStep s { s with phase2 := TickPhase.queried, claimed2 := s.due }
  | mark2 (s : PollSystem) :
      s.phase2 = TickPhase.queried →
      PollStep s { s with phase2 := TickPhase.marked,
                          due := s.due.filter (fun e => !s.claimed2.contains e) }
  | clear2 (s : PollSystem) :
      s.phase2 = TickPhase.marked →
      PollStep s { s with processing := false, phase2 := TickPhase.done }

/-- The inductive invariant of the two-invocation system: the flag mirrors
the active invocations, at most one invocation is active, inactive and
skipped invocations hold no claims, a queried invocation's claims are
exactly the due set it saw, committed claims are gone from the due set, and
the two claim sets never intersect. -/
def PollInv (s : PollSystem) : Prop :=
  s.processing = (s.phase1.isActive || s.phase2.isActive) ∧
  ¬(s.phase1.isActive = true ∧ s.phase2.isActive = true) ∧
  ((s.phase1 = TickPhase.idle ∨ s.phase1 = TickPhase.skipped) → s.claimed1 = []) ∧
  ((s.phase2 = TickPhase.idle ∨ s.phase2 = TickPhase.skipped) → s.claimed2 = []) ∧
  (s.phase1 = TickPhase.queried → s.claimed1 = s.due) ∧
  (s.phase2 = TickPhase.queried → s.claimed2 = s.due) ∧
  ((s.phase1 = TickPhase.marked ∨ s.phase1 = TickPhase.done) →
     ∀ e ∈ s.claimed1, e ∉ s.due) ∧
  ((s.phase2 = TickPhase.marked ∨ s.phase2 = TickPhase.done) →
     ∀ e ∈ s.claimed2, e ∉ s.due) ∧
  (∀ e ∈ s.claimed1, e ∉ s.claimed2)

@[simp] lemma isActive_idle : TickPhase.isActive TickPhase.idle = false := rfl

@[simp] lemma isActive_skipped : TickPhase.isActive TickPhase.skipped = false := rfl

@[simp] lemma isActive_entered : TickPhase.isActive TickPhase.entered = true := rfl

@[simp] lemma isActive_queried : TickPhase.isActive TickPhase.queried = true := rfl

@[simp] lemma isActive_marked : TickPhase.isActive TickPhase.marked = true := rfl

@[simp] lemma isActive_done : TickPhase.isActive TickPhase.done = false := rfl

lemma pollInv_init (d : List Nat) : PollInv (pollInit d) := by
  refine ⟨rfl, by simp [pollInit], ?_, ?_, ?_, ?_, ?_, ?_, ?_⟩ <;>
    simp [pollInit]

lemma pollInv_step {s s' : PollSystem} (hinv : PollInv s)
    (hstep : PollStep s s') : PollInv s' := by
  obtain ⟨h1, h2, h3, h4, h5, h6, h7, h8, h9⟩ := hinv
  cases hstep with
  | guardSkip1 hph hpr =>
      refine ⟨?_, ?_, ?_, h4, ?_, h6, ?_, h8, h9⟩
      · rw [hph] at h1
        simpa using h1
      · simp
      · intro _
        exact h3 (Or.inl hph)
      · simp
      · simp
  | guardEnter1 hph hpr =>
      have hp2 : s.phase2.isActive = false := by
        rw [hpr, hph] at h1
        simpa using h1.symm
      refine ⟨?_, ?_, ?_, h4, ?_, h6, ?_, h8, h9⟩
      · simp
      · simp [hp2]
      · simp
      · simp
      · simp
  | query1 hph =>
      have hp2 : s.phase2.isActive = false := by
        rcases h2p : s.phase2.isActive with _ | _
        · rfl
        · exact absurd ⟨by rw [hph]; rfl, h2p⟩ h2
      refine ⟨?_, ?_, ?_, h4, ?_, h6, ?_, h8, ?_⟩
      · rw [hph] at h1
        simpa using h1
      · simp [hp2]
      · simp
      · intro _
        rfl
      · simp
      · intro e he hc
        rcases hphase2 : s.phase2 with _ | _ | _ | _ | _ | _
        · rw [h4 (Or.inl hphase2)] at hc
          cases hc
        · rw [h4 (Or.inr hphase2)] at hc
          cases hc
        · rw [hphase2] at hp2
          simp at hp2
        · rw [hphase2] at hp2
          simp at hp2
        · exact h8 (Or.inl hphase2) e hc he
        · exact h8 (Or.inr hphase2) e hc he
  | mark1 hph =>
      have hp2 : s.phase2.isActive = false := by
        rcases h2p : s.phase2.isActive with _ | _
        · rfl
        · exact absurd ⟨by rw [hph]; rfl, h2p⟩ h2
      refine ⟨?_, ?_, ?_, h4, ?_, ?_, ?_, ?_, h9⟩
      · rw [hph] at h1
        simpa using h1
      · simp [hp2]
      · simp
      · simp
      · intro hc
        rw [hc] at hp2
        simp at hp2
      · intro _ e he hdue
        have hcont : s.claimed1.contains e = true := List.elem_eq_true_of_mem he
        have hcond := (List.mem_filter.mp hdue).2
        rw [hcont] at hcond
        simp at hcond
      · intro hmd e he hdue
        exact h8 hmd e he (List.mem_filter.mp hdue).1
  | clear1 hph =>
      have hp2 : s.phase2.isActive = false := by
        rcases h2p : s.phase2.isActive with _ | _
        · rfl
        · exact absurd ⟨by rw [hph]; rfl, h2p⟩ h2
      refine ⟨?_, ?_, ?_, h4, ?_, h6, ?_, h8, h9⟩
      · simp [hp2]
      · simp
      · simp
      · simp
      · intro _
        exact h7 (Or.inl hph)
  | guardSkip2 hph hpr =>
      refine ⟨?_, ?_, h3, ?_, h5, ?_, h7, ?_, h9⟩
      · rw [hph] at h1
        simpa using h1
      · simp
      · intro _
        exact h4 (Or.inl hph)
      · simp
      · simp
  | guardEnter2 hph hpr =>
      have hp1 : s.phase1.isActive = false := by
        rw [hpr, hph] at h1
        simpa using h1.symm
      refine ⟨?_, ?_, h3, ?_, h5, ?_, h7, ?_, h9⟩
      · simp
      · simp [hp1]
      · simp
      · simp
      · simp
  | query2 hph =>
      have hp1 : s.phase1.isActive = false := by
        rcases h1p : s.phase1.isActive with _ | _
        · rfl
        · exact absurd ⟨h1p, by rw [hph]; rfl⟩ h2
      refine ⟨?_, ?_, h3, ?_, h5, ?_, h7, ?_, ?_⟩
      · rw [hph] at h1
        simpa using h1
      · simp [hp1]
      · simp
      · intro _
        rfl
      · simp
      · intro e he hc
        rcases hphase1 : s.phase1 with _ | _ | _ | _ | _ | _
        · rw [h3 (Or.inl hphase1)] at he
          cases he
        · rw [h3 (Or.inr hphase1)] at he
          cases he
        · rw [hphase1] at hp1
          simp at hp1
        · rw [hphase1] at hp1
          simp at hp1
        · exact h7 (Or.inl hphase1) e he hc
        · exact h7 (Or.inr hphase1) e he hc
  | mark2 hph =>
      have hp1 : s.phase1.isActive = false := by
        rcases h1p : s.phase1.isActive with _ | _
        · rfl
        · exact absurd ⟨h1p, by rw [hph]; rfl⟩ h2
      refine ⟨?_, ?_, h3, ?_, ?_, ?_, ?_, ?_, h9⟩
      · rw [hph] at h1
        simpa using h1
      · simp [hp1]
      · simp
      · intro hc
        rw [hc] at hp1
        simp at hp1
      · simp
      · intro hmd e he hdue
        exact h7 hmd e he (List.mem_filter.mp hdue).1
      · intro _ e he hdue
        have hcont : s.claimed2.contains e = true := List.elem_eq_true_of_mem he
        have hcond := (List.mem_filter.mp hdue).2
        rw [hcont] at hcond
        simp at hcond
  | clear2 hph =>
      have hp1 : s.phase1.isActive = false := by
        rcases h1p : s.phase1.isActive with _ | _
        · rfl
        · exact absurd ⟨h1p, by rw [hph]; rfl⟩ h2
      refine ⟨?_, ?_, h3, ?_, h5, ?_, h7, ?_, h9⟩
      · simp [hp1]
      · simp
      · simp
      · simp
      · intro _
        exact h8 (Or.inl hph)


lemma pollInv_reachable (d : List Nat) (s : PollSystem)
    (h : Relation.ReflTransGen PollStep (pollInit d) s) : PollInv s := by
  induction h with
  | refl => exact pollInv_init d
  | tail hab hbc ih => exact pollInv_step ih hbc

/-- C5: the poll tick is single-flight.  In every state reachable by
interleaving the atomic segments of two tick invocations (timer-driven or
triggered by publish/publishBatch/retryFailedEvents): at most one invocation
is active; the two invocations never both claim the same event (no double
dispatch); an active invocation implies the `isProcessing` flag is set, so a
guard that runs meanwhile can only skip; and a skipped invocation claims and
dispatches nothing at all. -/
theorem c5_single_flight (d : List Nat) (s : PollSystem)
    (h : Relation.ReflTransGen PollStep (pollInit d) s) :
    ¬(s.phase1.isActive = true ∧ s.phase2.isActive = true) ∧
    (∀ e ∈ s.claimed1, e ∉ s.claimed2) ∧
    ((s.phase1.isActive = true ∨ s.phase2.isActive = true) →
       s.processing = true) ∧
    (s.phase1 = TickPhase.skipped → s.claimed1 = []) ∧
    (s.phase2 = TickPhase.skipped → s.claimed2 = []) := by
  obtain ⟨h1, h2, h3, h4, _, _, _, _, h9⟩ := pollInv_reachable d s h
  refine ⟨h2, h9, ?_, fun hp => h3 (Or.inr hp), fun hp => h4 (Or.inr hp)⟩
  intro hact
  rw [h1]
  rcases hact with ha | ha <;> simp [ha]

/-- The state reached by: tick 1 passes the guard, then tick 2 hits its
guard while tick 1 is still running and is skipped. -/
def c5wState : PollSystem :=
  ⟨true, [7], TickPhase.entered, TickPhase.skipped, [], []⟩

/-- C5 witness: the theorem applied to a concrete two-step trace in which the
second invocation arrives while the first is active and is skipped entirely. -/
theorem c5_single_flight_witness :
    ¬(c5wState.phase1.isActive = true ∧ c5wState.phase2.isActive = true) ∧
    (∀ e ∈ c5wState.claimed1, e ∉ c5wState.claimed2) ∧
    ((c5wState.phase1.isActive = true ∨ c5wState.phase2.isActive = true) →
       c5wState.processing = true) ∧
    (c5wState.phase1 = TickPhase.skipped → c5wState.claimed1 = []) ∧
    (c5wState.phase2 = TickPhase.skipped → c5wState.claimed2 = []) := by
  have htrace : Relation.ReflTransGen PollStep (pollInit [7]) c5wState :=
    Relation.ReflTransGen.tail
      (Relation.ReflTransGen.single (PollStep.guardEnter1 (pollInit [7]) rfl rfl))
      (PollStep.guardSkip2 _ rfl rfl)
  exact c5_single_flight [7] c5wState htrace

end Outbox
